import Mathlib

/-!
Shallow embedding of the `topo` crate's query cache and topology engine
(src/topo/src/cache.rs and src/topo/src/lib.rs) together with proofs of the
specification's claims about them.

The cache's `HashMap` values are modelled as association lists with
first-match lookup; `TypeId`-keyed namespace sharding is modelled by a small
closed universe `Ty` of runtime types interpreted into Lean types.
-/

namespace Moxie

/-- Liveness tag of a cached entry (`enum Liveness` in src/topo/src/cache.rs). -/
inductive Liveness
  | Live
  | Dead
deriving DecidableEq

/-- The `PartialEq`-against-`Live` test used by `Namespace::gc`'s retain. -/
def Liveness.isLive : Liveness → Bool
  | Live => true
  | Dead => false

/-- One stored value of a namespace: the `(Liveness, Input, Output)` tuple. -/
structure Entry (Input Output : Type) where
  liveness : Liveness
  input : Input
  output : Output
deriving DecidableEq

/-- First-match lookup in an association list, modelling `HashMap::get_mut`
on a map whose keys are unique. -/
def lookupEntry {S V : Type} [DecidableEq S] : List (S × V) → S → Option V
  | [], _ => none
  | (k, v) :: rest, q => if k = q then some v else lookupEntry rest q

/-- Replace the value at the first matching key, leaving the list unchanged
when the key is absent; models in-place mutation through `get_mut`. -/
def setEntry {S V : Type} [DecidableEq S] : List (S × V) → S → V → List (S × V)
  | [], _, _ => []
  | (k, v) :: rest, q, v' => if k = q then (k, v') :: rest else (k, v) :: setEntry rest q v'

/-- `struct Namespace<Scope, Input, Output>` from src/topo/src/cache.rs:
a map from `Scope` to `(Liveness, Input, Output)`. -/
structure Namespace (S I O : Type) where
  inner : List (S × Entry I O)
deriving DecidableEq

/-- Lookup of the stored tuple for a scope. -/
def Namespace.lookup {S I O : Type} [DecidableEq S] (ns : Namespace S I O) (q : S) :
    Option (Entry I O) :=
  lookupEntry ns.inner q

/-- `Namespace::get_if_input_eq`: if an entry is present for `query` and
`eq arg` holds of the stored input, mark the entry `Live` and return its
output; otherwise return absence and leave the map untouched. `eq` is the
user-supplied asymmetric `PartialEq<Input>` on the borrowed argument. -/
def Namespace.get_if_input_eq {S I O A : Type} [DecidableEq S] (ns : Namespace S I O)
    (query : S) (arg : A) (eq : A → I → Bool) : Option O × Namespace S I O :=
  match lookupEntry ns.inner query with
  | none => (none, ns)
  | some e =>
    if eq arg e.input then
      (some e.output, ⟨setEntry ns.inner query ⟨Liveness.Live, e.input, e.output⟩⟩)
    else
      (none, ns)

/-- `Namespace::store`: overwrite the entry for `query` when present, else
insert a fresh one; either way the entry ends up `Live`. -/
def Namespace.store {S I O : Type} [DecidableEq S] (ns : Namespace S I O)
    (query : S) (input : I) (output : O) : Namespace S I O :=
  match lookupEntry ns.inner query with
  | some _ => ⟨setEntry ns.inner query ⟨Liveness.Live, input, output⟩⟩
  | none => ⟨ns.inner ++ [(query, ⟨Liveness.Live, input, output⟩)]⟩

/-- The list-level body of `Namespace::gc`: retain the `Live` entries, then
set every remaining entry to `Dead`. -/
def gcList {S I O : Type} (l : List (S × Entry I O)) : List (S × Entry I O) :=
  (l.filter fun p => p.2.liveness.isLive).map fun p =>
    (p.1, ⟨Liveness.Dead, p.2.input, p.2.output⟩)

/-- `impl Gc for Namespace::gc`. -/
def Namespace.gc {S I O : Type} (ns : Namespace S I O) : Namespace S I O :=
  ⟨gcList ns.inner⟩

/-- The keys of the underlying map are pairwise distinct; every namespace
reachable through the public operations satisfies this. -/
def Namespace.KeysNodup {S I O : Type} (ns : Namespace S I O) : Prop :=
  (ns.inner.map Prod.fst).Nodup

theorem lookupEntry_setEntry_self {S V : Type} [DecidableEq S]
    (l : List (S × V)) (q : S) (v v0 : V) (h : lookupEntry l q = some v0) :
    lookupEntry (setEntry l q v) q = some v := by
  induction l with
  | nil => simp [lookupEntry] at h
  | cons p rest ih =>
    obtain ⟨k, w⟩ := p
    by_cases hk : k = q
    · simp [lookupEntry, setEntry, hk]
    · simp [lookupEntry, setEntry, hk] at h ⊢
      exact ih h

theorem lookupEntry_setEntry_ne {S V : Type} [DecidableEq S]
    (l : List (S × V)) (q k : S) (v : V) (h : k ≠ q) :
    lookupEntry (setEntry l q v) k = lookupEntry l k := by
  induction l with
  | nil => simp [setEntry]
  | cons p rest ih =>
    obtain ⟨k', w⟩ := p
    by_cases hk : k' = q
    · subst hk
      simp [lookupEntry, setEntry, Ne.symm h]
    · simp [lookupEntry, setEntry, hk, ih]

theorem lookupEntry_append {S V : Type} [DecidableEq S]
    (l l' : List (S × V)) (q : S) :
    lookupEntry (l ++ l') q =
      match lookupEntry l q with
      | some v => some v
      | none => lookupEntry l' q := by
  induction l with
  | nil => simp [lookupEntry]
  | cons p rest ih =>
    obtain ⟨k, w⟩ := p
    by_cases hk : k = q <;> simp [lookupEntry, hk, ih]

theorem Namespace.lookup_store_self {S I O : Type} [DecidableEq S]
    (ns : Namespace S I O) (q : S) (i : I) (o : O) :
    (ns.store q i o).lookup q = some ⟨Liveness.Live, i, o⟩ := by
  unfold Namespace.store Namespace.lookup
  cases h : lookupEntry ns.inner q with
  | some e => simpa using lookupEntry_setEntry_self ns.inner q _ _ h
  | none => simp [lookupEntry_append, h, lookupEntry]

theorem Namespace.lookup_store_ne {S I O : Type} [DecidableEq S]
    (ns : Namespace S I O) (q k : S) (i : I) (o : O) (hne : k ≠ q) :
    (ns.store q i o).lookup k = ns.lookup k := by
  unfold Namespace.store Namespace.lookup
  cases h : lookupEntry ns.inner q with
  | some e => simpa using lookupEntry_setEntry_ne ns.inner q k _ hne
  | none =>
    simp only [lookupEntry_append]
    cases lookupEntry ns.inner k <;> simp [lookupEntry, Ne.symm hne]

theorem Namespace.get_if_input_eq_none_lookup {S I O A : Type} [DecidableEq S]
    (ns : Namespace S I O) (query : S) (arg : A) (eq : A → I → Bool)
    (h : ns.lookup query = none) :
    ns.get_if_input_eq query arg eq = (none, ns) := by
  unfold Namespace.get_if_input_eq
  rw [Namespace.lookup] at h
  simp [h]

theorem Namespace.get_if_input_eq_unequal {S I O A : Type} [DecidableEq S]
    (ns : Namespace S I O) (query : S) (arg : A) (eq : A → I → Bool) (e : Entry I O)
    (h : ns.lookup query = some e) (hneq : eq arg e.input = false) :
    ns.get_if_input_eq query arg eq = (none, ns) := by
  unfold Namespace.get_if_input_eq
  rw [Namespace.lookup] at h
  simp [h, hneq]

theorem Namespace.get_if_input_eq_equal {S I O A : Type} [DecidableEq S]
    (ns : Namespace S I O) (query : S) (arg : A) (eq : A → I → Bool) (e : Entry I O)
    (h : ns.lookup query = some e) (heq : eq arg e.input = true) :
    ns.get_if_input_eq query arg eq =
      (some e.output, ⟨setEntry ns.inner query ⟨Liveness.Live, e.input, e.output⟩⟩) := by
  unfold Namespace.get_if_input_eq
  rw [Namespace.lookup] at h
  simp [h, heq]

theorem Namespace.get_if_input_eq_none_state {S I O A : Type} [DecidableEq S]
    (ns : Namespace S I O) (query : S) (arg : A) (eq : A → I → Bool)
    (h : (ns.get_if_input_eq query arg eq).1 = none) :
    (ns.get_if_input_eq query arg eq).2 = ns := by
  unfold Namespace.get_if_input_eq at h ⊢
  cases hl : lookupEntry ns.inner query with
  | none => simp [hl]
  | some e =>
    by_cases heq : eq arg e.input
    · simp [hl, heq] at h
    · simp [hl, heq]

theorem Namespace.get_if_input_eq_hit {S I O A : Type} [DecidableEq S]
    (ns : Namespace S I O) (query : S) (arg : A) (eq : A → I → Bool) (out : O)
    (ns' : Namespace S I O)
    (h : ns.get_if_input_eq query arg eq = (some out, ns')) :
    ∃ e : Entry I O, ns.lookup query = some e ∧ eq arg e.input = true ∧ out = e.output ∧
      ns' = ⟨setEntry ns.inner query ⟨Liveness.Live, e.input, e.output⟩⟩ := by
  rw [Namespace.lookup]
  unfold Namespace.get_if_input_eq at h
  cases hl : lookupEntry ns.inner query with
  | none => rw [hl] at h; simp at h
  | some e =>
    rw [hl] at h
    by_cases heq : eq arg e.input
    · refine ⟨e, rfl, heq, ?_, ?_⟩ <;> simp [heq] at h <;> simp [h.1.symm, h.2.symm]
    · simp [heq] at h

theorem Namespace.lookup_get_if_input_eq_hit {S I O A : Type} [DecidableEq S]
    (ns : Namespace S I O) (query : S) (arg : A) (eq : A → I → Bool) (out : O)
    (ns' : Namespace S I O)
    (h : ns.get_if_input_eq query arg eq = (some out, ns')) :
    ∃ i : I, ns'.lookup query = some ⟨Liveness.Live, i, out⟩ ∧ eq arg i = true := by
  obtain ⟨e, hl, heq, hout, hns⟩ := Namespace.get_if_input_eq_hit ns query arg eq out ns' h
  refine ⟨e.input, ?_, heq⟩
  subst hns hout
  rw [Namespace.lookup] at hl ⊢
  exact lookupEntry_setEntry_self ns.inner query _ _ hl

theorem Namespace.lookup_get_if_input_eq_ne {S I O A : Type} [DecidableEq S]
    (ns : Namespace S I O) (query k : S) (arg : A) (eq : A → I → Bool)
    (hne : k ≠ query) :
    ((ns.get_if_input_eq query arg eq).2).lookup k = ns.lookup k := by
  unfold Namespace.get_if_input_eq
  cases hl : lookupEntry ns.inner query with
  | none => rfl
  | some e =>
    by_cases heq : eq arg e.input
    · simp only [heq, if_true, Namespace.lookup]
      exact lookupEntry_setEntry_ne ns.inner query k _ hne
    · simp [heq]

theorem lookupEntry_gcList_none {S I O : Type} [DecidableEq S]
    (l : List (S × Entry I O)) (q : S) (h : lookupEntry l q = none) :
    lookupEntry (gcList l) q = none := by
  induction l with
  | nil => rfl
  | cons p rest ih =>
    obtain ⟨k, e⟩ := p
    by_cases hk : k = q
    · simp [lookupEntry, hk] at h
    · simp only [lookupEntry, hk, if_neg] at h
      simp only [gcList, List.filter_cons] at ih ⊢
      cases hl : e.liveness.isLive <;>
        simp [hl, lookupEntry, hk, ih h, gcList]

theorem lookupEntry_gcList_live {S I O : Type} [DecidableEq S]
    (l : List (S × Entry I O)) (q : S) (e : Entry I O)
    (h : lookupEntry l q = some e) (hlive : e.liveness = Liveness.Live) :
    lookupEntry (gcList l) q = some ⟨Liveness.Dead, e.input, e.output⟩ := by
  induction l with
  | nil => simp [lookupEntry] at h
  | cons p rest ih =>
    obtain ⟨k, e'⟩ := p
    by_cases hk : k = q
    · simp only [lookupEntry, hk, if_pos] at h
      cases h
      simp [gcList, List.filter_cons, hlive, Liveness.isLive, lookupEntry, hk]
    · simp only [lookupEntry, hk, if_neg] at h
      simp only [gcList, List.filter_cons] at ih ⊢
      cases hl : e'.liveness.isLive <;>
        simp [hl, lookupEntry, hk, ih h, gcList]

theorem lookupEntry_some_mem {S V : Type} [DecidableEq S]
    (l : List (S × V)) (q : S) (v : V) (h : lookupEntry l q = some v) :
    q ∈ l.map Prod.fst := by
  induction l with
  | nil => simp [lookupEntry] at h
  | cons p rest ih =>
    obtain ⟨k, w⟩ := p
    by_cases hk : k = q
    · simp [hk]
    · simp only [lookupEntry, hk, if_neg] at h
      simp [ih h]

theorem lookupEntry_gcList_dead {S I O : Type} [DecidableEq S]
    (l : List (S × Entry I O)) (q : S) (e : Entry I O)
    (hnd : (l.map Prod.fst).Nodup)
    (h : lookupEntry l q = some e) (hdead : e.liveness = Liveness.Dead) :
    lookupEntry (gcList l) q = none := by
  induction l with
  | nil => simp [lookupEntry] at h
  | cons p rest ih =>
    obtain ⟨k, e'⟩ := p
    simp only [List.map_cons, List.nodup_cons] at hnd
    by_cases hk : k = q
    · simp only [lookupEntry, hk, if_pos] at h
      cases h
      have hrest : lookupEntry rest q = none := by
        cases hr : lookupEntry rest q with
        | none => rfl
        | some v => exact absurd (hk ▸ lookupEntry_some_mem rest q v hr) hnd.1
      simp only [gcList, List.filter_cons, hdead, Liveness.isLive, Bool.false_eq_true,
        if_false]
      exact lookupEntry_gcList_none rest q hrest
    · simp only [lookupEntry, hk, if_neg] at h
      simp only [gcList, List.filter_cons] at ih ⊢
      cases hl : e'.liveness.isLive <;>
        simp [hl, lookupEntry, hk, ih hnd.2 h, gcList]

theorem Namespace.mem_gc_iff {S I O : Type} (ns : Namespace S I O) (k : S) (e : Entry I O) :
    (k, e) ∈ (ns.gc).inner ↔
      e.liveness = Liveness.Dead ∧ (k, ⟨Liveness.Live, e.input, e.output⟩) ∈ ns.inner := by
  unfold Namespace.gc gcList
  simp only [List.mem_map, List.mem_filter, Prod.exists]
  constructor
  · rintro ⟨k', e', ⟨hmem, hlive⟩, heq⟩
    obtain ⟨hl2, hi2, ho2⟩ := e'
    cases hl2 <;> simp [Liveness.isLive] at hlive
    obtain ⟨rfl, rfl⟩ := Prod.mk.injEq .. ▸ heq
    exact ⟨rfl, hmem⟩
  · rintro ⟨hdead, hmem⟩
    exact ⟨k, ⟨Liveness.Live, e.input, e.output⟩, ⟨hmem, rfl⟩, by
      obtain ⟨hl, hi, ho⟩ := e
      cases hdead
      rfl⟩

theorem Namespace.gc_gc_empty {S I O : Type} (ns : Namespace S I O) :
    (ns.gc).gc = (⟨[]⟩ : Namespace S I O) := by
  unfold Namespace.gc
  congr 1
  have hfilter : (gcList ns.inner).filter (fun p => p.2.liveness.isLive) = [] := by
    rw [List.filter_eq_nil_iff]
    rintro ⟨k, e⟩ hmem
    unfold gcList at hmem
    simp only [List.mem_map] at hmem
    obtain ⟨p, _, heq⟩ := hmem
    cases heq
    simp [Liveness.isLive]
  have hstep : gcList (gcList ns.inner)
      = ((gcList ns.inner).filter fun p => p.2.liveness.isLive).map
          (fun p => (p.1, (⟨Liveness.Dead, p.2.input, p.2.output⟩ : Entry I O))) := rfl
  rw [hstep, hfilter]
  rfl

/-- A small closed universe standing in for Rust runtime types; the cache's
`TypeId` sharding is modelled by equality on this type. -/
inductive Ty
  | tUnit
  | tBool
  | tNat
  | tStr
deriving DecidableEq

/-- Interpretation of the universe into Lean types. -/
def Ty.interp : Ty → Type
  | .tUnit => Unit
  | .tBool => Bool
  | .tNat => Nat
  | .tStr => String

/-- Equality on each interpreted type is decidable. -/
def Ty.decEqInterp : (t : Ty) → DecidableEq t.interp
  | .tUnit => inferInstanceAs (DecidableEq Unit)
  | .tBool => inferInstanceAs (DecidableEq Bool)
  | .tNat => inferInstanceAs (DecidableEq Nat)
  | .tStr => inferInstanceAs (DecidableEq String)

instance (t : Ty) : DecidableEq t.interp := Ty.decEqInterp t

/-- `struct Query` from src/topo/src/cache.rs: the `(Scope, Input, Output)`
triple of `TypeId`s keying a namespace inside the cache. -/
structure Query where
  scope : Ty
  input : Ty
  output : Ty
deriving DecidableEq

/-- The concrete namespace type stored for a query triple, recovered from the
type-erased `Box<dyn Gc>` by the infallible downcast. -/
abbrev NsOf (q : Query) : Type :=
  Namespace q.scope.interp q.input.interp q.output.interp

/-- Lookup of the (type-erased) namespace stored under a query triple. -/
def lookupNs : List ((q : Query) × NsOf q) → (q : Query) → Option (NsOf q)
  | [], _ => none
  | ⟨k, ns⟩ :: rest, q => if h : k = q then some (h ▸ ns) else lookupNs rest q

/-- Replace the namespace stored under a query triple, appending a new
binding when the triple is absent; models `HashMap::entry().or_insert_with`
followed by in-place mutation. -/
def setNs : List ((q : Query) × NsOf q) → (q : Query) → NsOf q → List ((q : Query) × NsOf q)
  | [], q, ns => [⟨q, ns⟩]
  | ⟨k, old⟩ :: rest, q, ns => if k = q then ⟨q, ns⟩ :: rest else ⟨k, old⟩ :: setNs rest q ns

/-- `struct Cache` (equivalently `LocalCache`) from src/topo/src/cache.rs:
a map from `Query` type triples to type-erased namespaces. -/
structure Cache where
  inner : List ((q : Query) × NsOf q)

/-- The namespace a mutable access under triple `q` operates on: the stored
one, or a fresh default (`or_insert_with(|| Box::new(Namespace::default()))`). -/
def Cache.getNamespace (c : Cache) (q : Query) : NsOf q :=
  (lookupNs c.inner q).getD ⟨[]⟩

/-- Writing back the namespace mutated under triple `q`; `get_namespace_mut`
guarantees the binding is present afterwards. -/
def Cache.setNamespace (c : Cache) (q : Query) (ns : NsOf q) : Cache :=
  ⟨setNs c.inner q ns⟩

/-- `Cache::get_if_arg_eq_prev_input`: route to the namespace of the triple,
delegate to `Namespace::get_if_input_eq` with structural equality of argument
against stored input. -/
def Cache.get_if_arg_eq_prev_input (c : Cache) (q : Query) (key : q.scope.interp)
    (arg : q.input.interp) : Option q.output.interp × Cache :=
  let res := (c.getNamespace q).get_if_input_eq key arg (fun a i => decide (a = i))
  (res.1, c.setNamespace q res.2)

/-- `Cache::store`: route to the namespace of the triple and delegate to
`Namespace::store`. -/
def Cache.store (c : Cache) (q : Query) (key : q.scope.interp)
    (input : q.input.interp) (output : q.output.interp) : Cache :=
  c.setNamespace q ((c.getNamespace q).store key input output)

/-- `Cache::gc`: call `gc` on every namespace; empty namespaces are kept. -/
def Cache.gc (c : Cache) : Cache :=
  ⟨c.inner.map fun e => ⟨e.1, e.2.gc⟩⟩

/-- The stored entry visible under triple `q` at scope `key`. -/
def Cache.entryAt (c : Cache) (q : Query) (key : q.scope.interp) :
    Option (Entry q.input.interp q.output.interp) :=
  (c.getNamespace q).lookup key

/-- `CacheHandle::cache_with` from src/topo/src/cache.rs, with the mutable
borrows of the shared cache made explicit by state passing: the borrow taken
for the hit path is released before `init` runs, so `init` receives the cache
state and may itself operate on it (re-entrance); its resulting state is the
one `store` runs against. -/
def Cache.cache_with {Ret : Type} (c : Cache) (q : Query) (key : q.scope.interp)
    (arg : q.input.interp)
    (init : q.input.interp → Cache → q.output.interp × Cache)
    (w : q.output.interp → Ret) : Ret × Cache :=
  match c.get_if_arg_eq_prev_input q key arg with
  | (some stored, c1) => (w stored, c1)
  | (none, c1) =>
    let res := init arg c1
    let to_return := w res.1
    (to_return, res.2.store q key arg res.1)

/-- `cache_with` with panicking user callbacks made explicit: `init` and
`with` return `Except`, a panic short-circuits exactly as unwinding does in
the source (in particular `with` runs before `store` on the miss path, so a
panic in either callback aborts before the store is committed). -/
def Cache.cache_with_panicking {Ret : Type} (c : Cache) (q : Query) (key : q.scope.interp)
    (arg : q.input.interp)
    (init : q.input.interp → Cache → Except String q.output.interp × Cache)
    (w : q.output.interp → Except String Ret) : Except String Ret × Cache :=
  match c.get_if_arg_eq_prev_input q key arg with
  | (some stored, c1) => (w stored, c1)
  | (none, c1) =>
    match init arg c1 with
    | (Except.error msg, c2) => (Except.error msg, c2)
    | (Except.ok to_store, c2) =>
      match w to_store with
      | Except.error msg => (Except.error msg, c2)
      | Except.ok r => (Except.ok r, c2.store q key arg to_store)

theorem lookupNs_setNs_self (l : List ((q : Query) × NsOf q)) (q : Query) (ns : NsOf q) :
    lookupNs (setNs l q ns) q = some ns := by
  induction l with
  | nil => simp [setNs, lookupNs]
  | cons p rest ih =>
    obtain ⟨k, old⟩ := p
    by_cases hk : k = q
    · simp [setNs, lookupNs, hk]
    · simp [setNs, lookupNs, hk, ih]

theorem lookupNs_setNs_ne (l : List ((q : Query) × NsOf q)) (q q' : Query) (ns : NsOf q)
    (hne : q' ≠ q) : lookupNs (setNs l q ns) q' = lookupNs l q' := by
  induction l with
  | nil => simp [setNs, lookupNs, Ne.symm hne]
  | cons p rest ih =>
    obtain ⟨k, old⟩ := p
    by_cases hk : k = q
    · subst hk
      simp [setNs, lookupNs, Ne.symm hne]
    · simp [setNs, lookupNs, hk, ih]

theorem Cache.getNamespace_setNamespace_self (c : Cache) (q : Query) (ns : NsOf q) :
    (c.setNamespace q ns).getNamespace q = ns := by
  unfold Cache.getNamespace Cache.setNamespace
  rw [lookupNs_setNs_self]
  rfl

theorem Cache.getNamespace_setNamespace_ne (c : Cache) (q q' : Query) (ns : NsOf q)
    (hne : q' ≠ q) : (c.setNamespace q ns).getNamespace q' = c.getNamespace q' := by
  unfold Cache.getNamespace Cache.setNamespace
  rw [lookupNs_setNs_ne _ _ _ _ hne]

/-- The FNV-1a 64-bit offset basis (`FnvHasher::default` in the `fnv` crate
used by src/topo/src/lib.rs). -/
def fnvOffsetBasis : Nat := 0xcbf29ce484222325

/-- The FNV 64-bit prime. -/
def fnvPrime : Nat := 0x100000001b3

/-- One step of `FnvHasher::write`: xor in a byte, wrapping-multiply by the
prime modulo 2^64. -/
def fnvByte (h b : Nat) : Nat := ((h ^^^ b) * fnvPrime) % 2 ^ 64

/-- `FnvHasher::write` over a byte sequence. -/
def fnvWrite (h : Nat) (bytes : List Nat) : Nat := bytes.foldl fnvByte h

/-- The bytes fed by `Hasher::write_u64` / `write_usize`: the value's eight
little-endian bytes (`to_ne_bytes` on the little-endian targets). -/
def u64Bytes (n : Nat) : List Nat := (List.range 8).map fun i => (n >>> (8 * i)) % 256

/-- The FNV-1a 64-bit hash of a byte sequence, started from the offset basis. -/
def fnv1a64 (bytes : List Nat) : Nat := fnvWrite fnvOffsetBasis bytes

/-- `struct Id(u64)` from src/topo/src/lib.rs. -/
structure Id where
  val : Nat
deriving DecidableEq

/-- `Id::child`: feed the parent id, the callsite and the slot through a
fresh `FnvHasher` and take the resulting 64-bit state. Callsites are
modelled by their `location: usize` field and slots by their hashed u64
representation. -/
def Id.child (self : Id) (callsite : Nat) (slot : Nat) : Id :=
  ⟨fnvWrite (fnvWrite (fnvWrite fnvOffsetBasis (u64Bytes self.val))
      (u64Bytes callsite)) (u64Bytes slot)⟩

/-- `struct Point` from src/topo/src/lib.rs: the id of the activation, the
callsite that created it, and the per-callsite child counts. -/
structure Point where
  id : Id
  callsite : Nat
  callsite_counts : List (Nat × Nat)
deriving DecidableEq

/-- First-match lookup in the callsite-count table. -/
def lookupCount : List (Nat × Nat) → Nat → Option Nat
  | [], _ => none
  | (s, n) :: rest, c => if s = c then some n else lookupCount rest c

/-- The list-level body of `Point::increment_count`: bump the count of the
first matching callsite, else push `(callsite, 1)`. -/
def incrementCountList : List (Nat × Nat) → Nat → List (Nat × Nat)
  | [], c => [(c, 1)]
  | (s, n) :: rest, c =>
    if s = c then (s, n + 1) :: rest else (s, n) :: incrementCountList rest c

/-- `Point::increment_count`. -/
def Point.increment_count (p : Point) (c : Nat) : Point :=
  { p with callsite_counts := incrementCountList p.callsite_counts c }

/-- `Point::unstable_callsite_count`: the recorded count for a callsite,
zero when the callsite has not been observed. -/
def Point.unstable_callsite_count (p : Point) (c : Nat) : Nat :=
  (lookupCount p.callsite_counts c).getD 0

/-- `Point::unstable_enter_child` with the interior mutability of
`callsite_counts` made explicit: the parent's counter for the callsite is
incremented first, then the child `Point` is built with
`id = self.id.child(callsite, slot)` and an empty count table. Returns the
updated parent together with the child. -/
def Point.unstable_enter_child (p : Point) (callsite : Nat) (slot : Nat) : Point × Point :=
  let parent := p.increment_count callsite
  let child : Point :=
    { id := p.id.child callsite slot, callsite := callsite, callsite_counts := [] }
  (parent, child)

/-- Modelled from the spec: the bodies of `call`, `call_in_slot` and
`call_inner` in src/topo/src/lib.rs are `unimplemented!()`, so the wiring of
the default slot is missing from the source. Following §4.2 of the spec
(child construction protocol), the default slot is the per-callsite count
read back after the increment. -/
def Point.enter_child_default_slot (p : Point) (callsite : Nat) : Point × Point :=
  let parent := p.increment_count callsite
  let slot := parent.unstable_callsite_count callsite
  let child : Point :=
    { id := p.id.child callsite slot, callsite := callsite, callsite_counts := [] }
  (parent, child)

/-- `Point::default` as written in src/topo/src/lib.rs: the `callsite` field
is `let callsite = unimplemented!();`, so evaluating it panics before the
struct (whose `id` field is `Id(0)`) is built; the panic is modelled as
`Except.error`. -/
def Point.defaultCode : Except String Point := Except.error "not implemented"

/-- `Id::current` by way of `Point::unstable_with_current`: run the
continuation on the ambient `Point` when one is present, else on
`Point::default()` (which panics). -/
def Id.currentCode (ambient : Option Point) : Except String Id :=
  match ambient with
  | some p => Except.ok p.id
  | none => Point.defaultCode.map Point.id

/-- Modelled from the spec: §9 mandates that the root `Point` carry the
`Id(0)` written in the source `Point::default` together with a sentinel
callsite distinct from all user callsites (the source leaves the callsite
`unimplemented!()`). -/
def Point.defaultSpec : Point := { id := ⟨0⟩, callsite := 0, callsite_counts := [] }

/-- `Id::current` against the spec-modelled root `Point`. -/
def Id.currentSpec (ambient : Option Point) : Id :=
  (ambient.getD Point.defaultSpec).id

theorem fnvWrite_append (h : Nat) (a b : List Nat) :
    fnvWrite (fnvWrite h a) b = fnvWrite h (a ++ b) := by
  unfold fnvWrite
  rw [List.foldl_append]

theorem fnvByte_lt (h b : Nat) : fnvByte h b < 2 ^ 64 :=
  Nat.mod_lt _ (by norm_num)

theorem fnvWrite_lt (h : Nat) (bytes : List Nat) (hh : h < 2 ^ 64) :
    fnvWrite h bytes < 2 ^ 64 := by
  induction bytes generalizing h with
  | nil => exact hh
  | cons b rest ih => exact ih _ (fnvByte_lt h b)

theorem lookupCount_increment_self (l : List (Nat × Nat)) (c : Nat) :
    lookupCount (incrementCountList l c) c = some ((lookupCount l c).getD 0 + 1) := by
  induction l with
  | nil => simp [incrementCountList, lookupCount]
  | cons p rest ih =>
    obtain ⟨s, n⟩ := p
    by_cases hs : s = c
    · simp [incrementCountList, lookupCount, hs]
    · simp [incrementCountList, lookupCount, hs, ih]

theorem Point.count_increment_self (p : Point) (c : Nat) :
    (p.increment_count c).unstable_callsite_count c = p.unstable_callsite_count c + 1 := by
  unfold Point.increment_count Point.unstable_callsite_count
  simp [lookupCount_increment_self]

theorem Cache.getNamespace_store_self (c : Cache) (q : Query) (k : q.scope.interp)
    (i : q.input.interp) (o : q.output.interp) :
    (c.store q k i o).getNamespace q = (c.getNamespace q).store k i o :=
  Cache.getNamespace_setNamespace_self ..

theorem Cache.getNamespace_store_ne (c : Cache) (q q' : Query) (k : q.scope.interp)
    (i : q.input.interp) (o : q.output.interp) (hne : q' ≠ q) :
    (c.store q k i o).getNamespace q' = c.getNamespace q' :=
  Cache.getNamespace_setNamespace_ne _ _ _ _ hne

theorem Cache.read_fst (c : Cache) (q : Query) (k : q.scope.interp) (a : q.input.interp) :
    (c.get_if_arg_eq_prev_input q k a).1
      = ((c.getNamespace q).get_if_input_eq k a (fun x i => decide (x = i))).1 := rfl

theorem Cache.read_snd_getNamespace_self (c : Cache) (q : Query) (k : q.scope.interp)
    (a : q.input.interp) :
    ((c.get_if_arg_eq_prev_input q k a).2).getNamespace q
      = ((c.getNamespace q).get_if_input_eq k a (fun x i => decide (x = i))).2 :=
  Cache.getNamespace_setNamespace_self ..

theorem Cache.read_snd_getNamespace_ne (c : Cache) (q q' : Query) (k : q.scope.interp)
    (a : q.input.interp) (hne : q' ≠ q) :
    ((c.get_if_arg_eq_prev_input q k a).2).getNamespace q' = c.getNamespace q' :=
  Cache.getNamespace_setNamespace_ne _ _ _ _ hne

/-- The query triple used by concrete witness instances: scope, input and
output are all of runtime type `Nat`. -/
def natQuery : Query := ⟨Ty.tNat, Ty.tNat, Ty.tNat⟩

/-- A query triple agreeing with `natQuery` on scope and input but with a
different output type. -/
def natStrQuery : Query := ⟨Ty.tNat, Ty.tNat, Ty.tStr⟩

/-- Claim C1: after `store(q, i, o)`, a `get_if_arg_eq_prev_input(q, a)` with
`a = i` returns the most recently stored output `o`; with `a ≠ i` the read
returns absence while leaving the (Live) entry in place, so a subsequent
read with `a = i` still returns `o`. -/
theorem cache_hit_and_miss_on_unequal_input (c : Cache) (q : Query)
    (k : q.scope.interp) (i : q.input.interp) (o : q.output.interp) (a : q.input.interp) :
    ((c.store q k i o).get_if_arg_eq_prev_input q k i).1 = some o
    ∧ (a ≠ i →
        ((c.store q k i o).get_if_arg_eq_prev_input q k a).1 = none
        ∧ (((c.store q k i o).get_if_arg_eq_prev_input q k a).2).entryAt q k
            = some ⟨Liveness.Live, i, o⟩
        ∧ ((((c.store q k i o).get_if_arg_eq_prev_input q k a).2).get_if_arg_eq_prev_input
            q k i).1 = some o) := by
  have hns : (c.store q k i o).getNamespace q = (c.getNamespace q).store k i o :=
    Cache.getNamespace_store_self c q k i o
  have hlook : ((c.store q k i o).getNamespace q).lookup k = some ⟨Liveness.Live, i, o⟩ := by
    rw [hns]
    exact Namespace.lookup_store_self ..
  refine ⟨?_, fun hne => ?_⟩
  · rw [Cache.read_fst,
      Namespace.get_if_input_eq_equal _ _ _ _ _ hlook (by simp)]
  · have hread := Namespace.get_if_input_eq_unequal ((c.store q k i o).getNamespace q)
      k a (fun x j => decide (x = j)) _ hlook (by simp [hne])
    refine ⟨?_, ?_, ?_⟩
    · rw [Cache.read_fst, hread]
    · rw [Cache.entryAt, Cache.read_snd_getNamespace_self, hread, hlook]
    · rw [Cache.read_fst, Cache.read_snd_getNamespace_self, hread,
        Namespace.get_if_input_eq_equal _ _ _ _ _ hlook (by simp)]

/-- Witness for C1 at a concrete cache: scope key 3, input 1, output 7,
unequal argument 2. -/
theorem cache_hit_and_miss_on_unequal_input_witness :
    (2 : Nat) ≠ 1
    ∧ (((Cache.store ⟨[]⟩ natQuery (3 : Nat) (1 : Nat) (7 : Nat)).get_if_arg_eq_prev_input
          natQuery (3 : Nat) (1 : Nat)).1 = some (7 : Nat)
      ∧ ((2 : Nat) ≠ (1 : Nat) →
          ((Cache.store ⟨[]⟩ natQuery (3 : Nat) (1 : Nat) (7 : Nat)).get_if_arg_eq_prev_input
            natQuery (3 : Nat) (2 : Nat)).1 = none
          ∧ (((Cache.store ⟨[]⟩ natQuery (3 : Nat) (1 : Nat)
                (7 : Nat)).get_if_arg_eq_prev_input natQuery (3 : Nat) (2 : Nat)).2).entryAt
              natQuery (3 : Nat) = some ⟨Liveness.Live, (1 : Nat), (7 : Nat)⟩
          ∧ ((((Cache.store ⟨[]⟩ natQuery (3 : Nat) (1 : Nat)
                  (7 : Nat)).get_if_arg_eq_prev_input
                natQuery (3 : Nat) (2 : Nat)).2).get_if_arg_eq_prev_input
              natQuery (3 : Nat) (1 : Nat)).1 = some (7 : Nat))) :=
  ⟨by decide, cache_hit_and_miss_on_unequal_input ⟨[]⟩ natQuery (3 : Nat) (1 : Nat)
    (7 : Nat) (2 : Nat)⟩

/-- Claim C2: `gc` keeps exactly the formerly-`Live` entries, every survivor
now tagged `Dead`, and removes the `Dead` ones; a `store` and a successful
input-equal read leave the touched entry `Live`; an entry stored and then
never touched survives exactly one `gc` (with tag `Dead`) and is evicted by
the next; an entry touched between two consecutive `gc` calls (by store or
by successful read) survives the second. -/
theorem gc_liveness_law {S I O A : Type} [DecidableEq S] (ns : Namespace S I O)
    (q : S) (i : I) (o : O) (arg : A) (eq : A → I → Bool) :
    (∀ (k : S) (e : Entry I O), (k, e) ∈ (ns.gc).inner ↔
        e.liveness = Liveness.Dead ∧ (k, ⟨Liveness.Live, e.input, e.output⟩) ∈ ns.inner)
    ∧ (ns.store q i o).lookup q = some ⟨Liveness.Live, i, o⟩
    ∧ (∀ (out : O) (ns' : Namespace S I O),
        ns.get_if_input_eq q arg eq = (some out, ns') →
        ∃ j : I, ns'.lookup q = some ⟨Liveness.Live, j, out⟩)
    ∧ ((ns.store q i o).gc).lookup q = some ⟨Liveness.Dead, i, o⟩
    ∧ (((ns.store q i o).gc).gc).lookup q = none
    ∧ (∀ (out : O) (ns' : Namespace S I O),
        ns.get_if_input_eq q arg eq = (some out, ns') →
        ∃ j : I, (ns'.gc).lookup q = some ⟨Liveness.Dead, j, out⟩) := by
  refine ⟨Namespace.mem_gc_iff ns, Namespace.lookup_store_self ns q i o, ?_, ?_, ?_, ?_⟩
  · intro out ns' h
    obtain ⟨j, hj, _⟩ := Namespace.lookup_get_if_input_eq_hit ns q arg eq out ns' h
    exact ⟨j, hj⟩
  · exact lookupEntry_gcList_live _ q _ (Namespace.lookup_store_self ns q i o) rfl
  · rw [Namespace.gc_gc_empty]
    rfl
  · intro out ns' h
    obtain ⟨j, hj, _⟩ := Namespace.lookup_get_if_input_eq_hit ns q arg eq out ns' h
    exact ⟨j, lookupEntry_gcList_live _ q _ hj rfl⟩

/-- Witness for C2 on a concrete namespace: a successful read marks the
entry `Live` and the entry survives the following `gc` as `Dead`. -/
theorem gc_liveness_law_witness :
    ((⟨[((1 : Nat), ⟨Liveness.Dead, (2 : Nat), (3 : Nat)⟩)]⟩ :
        Namespace Nat Nat Nat).get_if_input_eq 1 2 (fun a j => decide (a = j))
      = (some 3, ⟨[(1, ⟨Liveness.Live, 2, 3⟩)]⟩))
    ∧ (∃ j : Nat,
        ((⟨[((1 : Nat), ⟨Liveness.Live, (2 : Nat), (3 : Nat)⟩)]⟩ :
            Namespace Nat Nat Nat).gc).lookup 1 = some ⟨Liveness.Dead, j, 3⟩) :=
  ⟨rfl,
    (gc_liveness_law (⟨[(1, ⟨Liveness.Dead, 2, 3⟩)]⟩ : Namespace Nat Nat Nat)
      1 2 3 2 (fun a j => decide (a = j))).2.2.2.2.2 3
      ⟨[(1, ⟨Liveness.Live, 2, 3⟩)]⟩ rfl⟩

/-- Claim C10: when an entry exists for the scope but the supplied argument
does not equal its stored input, `get_if_input_eq` returns absence and
leaves the namespace — the entry and its liveness tag included — completely
unchanged; in particular a `Dead` entry not otherwise touched is still
evicted by the next `gc`. -/
theorem unequal_read_preserves_entry {S I O A : Type} [DecidableEq S]
    (ns : Namespace S I O) (q : S) (arg : A) (eq : A → I → Bool) (e : Entry I O)
    (hl : ns.lookup q = some e) (hneq : eq arg e.input = false) :
    ns.get_if_input_eq q arg eq = (none, ns)
    ∧ ((ns.get_if_input_eq q arg eq).2).lookup q = some e
    ∧ (ns.KeysNodup → e.liveness = Liveness.Dead →
        (((ns.get_if_input_eq q arg eq).2).gc).lookup q = none) := by
  have hread := Namespace.get_if_input_eq_unequal ns q arg eq e hl hneq
  refine ⟨hread, ?_, fun hnd hdead => ?_⟩
  · rw [hread]
    exact hl
  · rw [hread]
    exact lookupEntry_gcList_dead ns.inner q e hnd hl hdead

/-- Witness for C10: a `Dead` entry with input 5, read with unequal argument
6, remains untouched and is evicted by the following `gc`. -/
theorem unequal_read_preserves_entry_witness :
    ((⟨[((4 : Nat), ⟨Liveness.Dead, (5 : Nat), (9 : Nat)⟩)]⟩ :
        Namespace Nat Nat Nat).get_if_input_eq 4 6 (fun a j => decide (a = j))
      = (none, ⟨[(4, ⟨Liveness.Dead, 5, 9⟩)]⟩))
    ∧ (((⟨[((4 : Nat), ⟨Liveness.Dead, (5 : Nat), (9 : Nat)⟩)]⟩ :
          Namespace Nat Nat Nat).get_if_input_eq 4 6 (fun a j => decide (a = j))).2).lookup 4
        = some ⟨Liveness.Dead, 5, 9⟩
    ∧ ((((⟨[((4 : Nat), ⟨Liveness.Dead, (5 : Nat), (9 : Nat)⟩)]⟩ :
          Namespace Nat Nat Nat).get_if_input_eq 4 6
            (fun a j => decide (a = j))).2).gc).lookup 4 = none := by
  have h := unequal_read_preserves_entry
    (⟨[((4 : Nat), ⟨Liveness.Dead, (5 : Nat), (9 : Nat)⟩)]⟩ : Namespace Nat Nat Nat)
    4 6 (fun a j => decide (a = j)) ⟨Liveness.Dead, 5, 9⟩ rfl rfl
  exact ⟨h.1, h.2.1, h.2.2 (by simp [Namespace.KeysNodup]) rfl⟩

/-- Claim C9: a read under a type triple whose namespace is not yet present
returns absence but inserts a fresh empty namespace for that triple, so even
a missed read grows the cache's namespace map. -/
theorem missed_read_inserts_namespace (c : Cache) (q : Query) (k : q.scope.interp)
    (a : q.input.interp) (habsent : lookupNs c.inner q = none) :
    (c.get_if_arg_eq_prev_input q k a).1 = none
    ∧ lookupNs ((c.get_if_arg_eq_prev_input q k a).2).inner q
        = some (⟨[]⟩ : NsOf q) := by
  have hns : c.getNamespace q = (⟨[]⟩ : NsOf q) := by
    unfold Cache.getNamespace
    rw [habsent]
    rfl
  have hread : (c.getNamespace q).get_if_input_eq k a (fun x i => decide (x = i))
      = (none, (⟨[]⟩ : NsOf q)) := by
    rw [hns]
    rfl
  constructor
  · rw [Cache.read_fst, hread]
  · show lookupNs (setNs c.inner q _) q = _
    rw [lookupNs_setNs_self]
    rw [hread]

/-- Witness for C9: reading an empty cache under the nat triple inserts the
empty namespace for it. -/
theorem missed_read_inserts_namespace_witness :
    ((Cache.get_if_arg_eq_prev_input ⟨[]⟩ natQuery (3 : Nat) (1 : Nat)).1 = none)
    ∧ lookupNs ((Cache.get_if_arg_eq_prev_input ⟨[]⟩ natQuery
        (3 : Nat) (1 : Nat)).2).inner natQuery = some (⟨[]⟩ : NsOf natQuery) :=
  missed_read_inserts_namespace ⟨[]⟩ natQuery (3 : Nat) (1 : Nat) rfl

/-- Claim C7: a store under one type triple does not change the result of a
read under any different triple (differing in scope, input or output type):
every triple is routed to its own namespace keyed by the three TypeIds. -/
theorem type_sharding_isolation (c : Cache) (q1 q2 : Query) (hne : q2 ≠ q1)
    (k1 : q1.scope.interp) (i1 : q1.input.interp) (o1 : q1.output.interp)
    (k2 : q2.scope.interp) (a2 : q2.input.interp) :
    ((c.store q1 k1 i1 o1).get_if_arg_eq_prev_input q2 k2 a2).1
      = (c.get_if_arg_eq_prev_input q2 k2 a2).1 := by
  rw [Cache.read_fst, Cache.read_fst, Cache.getNamespace_store_ne c q1 q2 k1 i1 o1 hne]

/-- Witness for C7: the nat-to-nat triple and the triple differing from it
only in the output type do not interfere. -/
theorem type_sharding_isolation_witness :
    natStrQuery ≠ natQuery
    ∧ ((Cache.store ⟨[]⟩ natQuery (3 : Nat) (1 : Nat) (7 : Nat)).get_if_arg_eq_prev_input
          natStrQuery (3 : Nat) (1 : Nat)).1
        = (Cache.get_if_arg_eq_prev_input ⟨[]⟩ natStrQuery (3 : Nat) (1 : Nat)).1 :=
  ⟨by decide,
    type_sharding_isolation ⟨[]⟩ natQuery natStrQuery (by decide)
      (3 : Nat) (1 : Nat) (7 : Nat) (3 : Nat) (1 : Nat)⟩

/-- Claim C3: on a hit, `cache_with` returns `with` applied to the stored
output and the final state is exactly the post-read state, whatever `init`
is (so `init` is not invoked), with no write beyond marking the matched
entry `Live`; on a miss it invokes `init` on the owned argument against the
cache state left by the released read borrow, evaluates `with` on the new
output, stores the entry and returns `with`'s result, after which the outer
entry is present (`Live`, keyed by the owned argument) and every entry
`init` itself committed — such as a nested `cache_with` store — is still
present. -/
theorem cache_with_hit_and_miss {Ret : Type} (c : Cache) (q : Query)
    (k : q.scope.interp) (a : q.input.interp)
    (init : q.input.interp → Cache → q.output.interp × Cache)
    (w : q.output.interp → Ret) :
    (∀ (stored : q.output.interp) (c1 : Cache),
        c.get_if_arg_eq_prev_input q k a = (some stored, c1) →
        c.cache_with q k a init w = (w stored, c1)
        ∧ c1.entryAt q k = some ⟨Liveness.Live, a, stored⟩
        ∧ (∀ (q' : Query) (k' : q'.scope.interp), q' ≠ q →
            c1.entryAt q' k' = c.entryAt q' k')
        ∧ (∀ k' : q.scope.interp, k' ≠ k → c1.entryAt q k' = c.entryAt q k'))
    ∧ (∀ (c1 : Cache) (out : q.output.interp) (c2 : Cache),
        c.get_if_arg_eq_prev_input q k a = (none, c1) →
        init a c1 = (out, c2) →
        c.cache_with q k a init w = (w out, c2.store q k a out)
        ∧ (c2.store q k a out).entryAt q k = some ⟨Liveness.Live, a, out⟩
        ∧ (∀ (q' : Query) (k' : q'.scope.interp), q' ≠ q →
            (c2.store q k a out).entryAt q' k' = c2.entryAt q' k')
        ∧ (∀ k' : q.scope.interp, k' ≠ k →
            (c2.store q k a out).entryAt q k' = c2.entryAt q k')) := by
  constructor
  · intro stored c1 h
    have hfst : ((c.getNamespace q).get_if_input_eq k a (fun x i => decide (x = i))).1
        = some stored := by
      rw [← Cache.read_fst, h]
    have hsnd : c1 = c.setNamespace q
        ((c.getNamespace q).get_if_input_eq k a (fun x i => decide (x = i))).2 := by
      have : (c.get_if_arg_eq_prev_input q k a).2 = c1 := by rw [h]
      exact this.symm
    have hpair : (c.getNamespace q).get_if_input_eq k a (fun x i => decide (x = i))
        = (some stored,
            ((c.getNamespace q).get_if_input_eq k a (fun x i => decide (x = i))).2) := by
      rw [← hfst]
    obtain ⟨j, hj, hdec⟩ := Namespace.lookup_get_if_input_eq_hit
      (c.getNamespace q) k a (fun x i => decide (x = i)) stored _ hpair
    have hja : j = a := (of_decide_eq_true hdec).symm
    refine ⟨?_, ?_, ?_, ?_⟩
    · simp [Cache.cache_with, h]
    · rw [Cache.entryAt, hsnd, Cache.getNamespace_setNamespace_self]
      rw [hja] at hj
      exact hj
    · intro q' k' hq
      rw [Cache.entryAt, Cache.entryAt, hsnd, Cache.getNamespace_setNamespace_ne _ _ _ _ hq]
    · intro k' hk
      rw [Cache.entryAt, Cache.entryAt, hsnd, Cache.getNamespace_setNamespace_self]
      exact Namespace.lookup_get_if_input_eq_ne (c.getNamespace q) k k' a _ hk
  · intro c1 out c2 h h2
    refine ⟨?_, ?_, ?_, ?_⟩
    · simp [Cache.cache_with, h, h2]
    · rw [Cache.entryAt, Cache.getNamespace_store_self]
      exact Namespace.lookup_store_self ..
    · intro q' k' hq
      rw [Cache.entryAt, Cache.entryAt, Cache.getNamespace_store_ne _ _ _ _ _ _ hq]
    · intro k' hk
      rw [Cache.entryAt, Cache.entryAt, Cache.getNamespace_store_self]
      exact Namespace.lookup_store_ne _ _ _ _ _ hk

/-- The cache state after a missed read of the empty cache under the nat
triple (the state `init` receives in the witness below). -/
def cwMissBase : Cache := (Cache.get_if_arg_eq_prev_input ⟨[]⟩ natQuery (3 : Nat) (1 : Nat)).2

/-- The state after the witness `init` commits its nested entry. -/
def cwNested : Cache := cwMissBase.store natStrQuery (10 : Nat) (2 : Nat) "nested"

/-- The state after the outer `cache_with` commits its own entry. -/
def cwFinal : Cache := cwNested.store natQuery (3 : Nat) (1 : Nat) (7 : Nat)

/-- Witness for C3: a hit returns the stored 7 with an `init` that would
return 101; a miss whose `init` itself stores a nested entry under another
triple returns `init`'s output and leaves both the outer and the nested
entry present. -/
theorem cache_with_hit_and_miss_witness :
    (Cache.cache_with (Cache.store ⟨[]⟩ natQuery (3 : Nat) (1 : Nat) (7 : Nat))
        natQuery (3 : Nat) (1 : Nat) (fun (i : Nat) cc => (i + 100, cc)) (fun o => o)
      = ((7 : Nat),
          ((Cache.store ⟨[]⟩ natQuery (3 : Nat) (1 : Nat) (7 : Nat)).get_if_arg_eq_prev_input
            natQuery (3 : Nat) (1 : Nat)).2))
    ∧ (Cache.cache_with ⟨[]⟩ natQuery (3 : Nat) (1 : Nat)
        (fun (i : Nat) cc => (i + 6, cc.store natStrQuery (10 : Nat) (2 : Nat) "nested"))
        (fun o => o)
      = ((7 : Nat), cwFinal))
    ∧ cwFinal.entryAt natQuery (3 : Nat) = some ⟨Liveness.Live, (1 : Nat), (7 : Nat)⟩
    ∧ cwFinal.entryAt natStrQuery (10 : Nat) = cwNested.entryAt natStrQuery (10 : Nat) := by
  have hmiss := (cache_with_hit_and_miss ⟨[]⟩ natQuery (3 : Nat) (1 : Nat)
    (fun (i : Nat) cc => (i + 6, cc.store natStrQuery (10 : Nat) (2 : Nat) "nested"))
    (fun o => o)).2 cwMissBase (7 : Nat) cwNested rfl rfl
  refine ⟨?_, hmiss.1, hmiss.2.1, hmiss.2.2.1 natStrQuery (10 : Nat) (by decide)⟩
  exact ((cache_with_hit_and_miss (Cache.store ⟨[]⟩ natQuery (3 : Nat) (1 : Nat) (7 : Nat))
    natQuery (3 : Nat) (1 : Nat) (fun (i : Nat) cc => (i + 100, cc)) (fun o => o)).1
    (7 : Nat) _ rfl).1

theorem Cache.read_none_entryAt (c : Cache) (q : Query) (k : q.scope.interp)
    (a : q.input.interp) (c1 : Cache)
    (h : c.get_if_arg_eq_prev_input q k a = (none, c1)) :
    ∀ (q' : Query) (k' : q'.scope.interp), c1.entryAt q' k' = c.entryAt q' k' := by
  intro q' k'
  have hfst : ((c.getNamespace q).get_if_input_eq k a (fun x i => decide (x = i))).1
      = none := by
    rw [← Cache.read_fst, h]
  have hstate := Namespace.get_if_input_eq_none_state (c.getNamespace q) k a _ hfst
  have hc1 : c1 = c.setNamespace q
      ((c.getNamespace q).get_if_input_eq k a (fun x i => decide (x = i))).2 := by
    have hx : (c.get_if_arg_eq_prev_input q k a).2 = c1 := by rw [h]
    exact hx.symm
  by_cases hq : q' = q
  · subst hq
    rw [Cache.entryAt, Cache.entryAt, hc1, Cache.getNamespace_setNamespace_self, hstate]
  · rw [Cache.entryAt, Cache.entryAt, hc1, Cache.getNamespace_setNamespace_ne _ _ _ _ hq]

theorem Cache.read_hit_spec (c : Cache) (q : Query) (k : q.scope.interp)
    (a : q.input.interp) (stored : q.output.interp) (c1 : Cache)
    (h : c.get_if_arg_eq_prev_input q k a = (some stored, c1)) :
    c1.entryAt q k = some ⟨Liveness.Live, a, stored⟩
    ∧ (∀ (q' : Query) (k' : q'.scope.interp), q' ≠ q → c1.entryAt q' k' = c.entryAt q' k')
    ∧ (∀ k' : q.scope.interp, k' ≠ k → c1.entryAt q k' = c.entryAt q k') := by
  have hfst : ((c.getNamespace q).get_if_input_eq k a (fun x i => decide (x = i))).1
      = some stored := by
    rw [← Cache.read_fst, h]
  have hc1 : c1 = c.setNamespace q
      ((c.getNamespace q).get_if_input_eq k a (fun x i => decide (x = i))).2 := by
    have hx : (c.get_if_arg_eq_prev_input q k a).2 = c1 := by rw [h]
    exact hx.symm
  have hpair : (c.getNamespace q).get_if_input_eq k a (fun x i => decide (x = i))
      = (some stored,
          ((c.getNamespace q).get_if_input_eq k a (fun x i => decide (x = i))).2) := by
    rw [← hfst]
  obtain ⟨j, hj, hdec⟩ := Namespace.lookup_get_if_input_eq_hit
    (c.getNamespace q) k a (fun x i => decide (x = i)) stored _ hpair
  have hja : j = a := (of_decide_eq_true hdec).symm
  refine ⟨?_, ?_, ?_⟩
  · rw [Cache.entryAt, hc1, Cache.getNamespace_setNamespace_self]
    rw [hja] at hj
    exact hj
  · intro q' k' hq
    rw [Cache.entryAt, Cache.entryAt, hc1, Cache.getNamespace_setNamespace_ne _ _ _ _ hq]
  · intro k' hk
    rw [Cache.entryAt, Cache.entryAt, hc1, Cache.getNamespace_setNamespace_self]
    exact Namespace.lookup_get_if_input_eq_ne (c.getNamespace q) k k' a _ hk

/-- Claim C6: a panic raised inside `init` or `with` propagates through
`cache_with`, and the aborted call commits nothing: on a hit whose `with`
panics, the final state is exactly the post-read state, whose only change is
the liveness flip of the matched entry; on a miss, a panic in `init`, or in
`with` (which the source runs before `store`), aborts before the store is
committed, and the post-read state the callbacks saw has exactly the stored
entries of the initial state. -/
theorem cache_with_panic_propagation {Ret : Type} (c : Cache) (q : Query)
    (k : q.scope.interp) (a : q.input.interp)
    (w : q.output.interp → Except String Ret) (msg : String) :
    (∀ (stored : q.output.interp) (c1 : Cache)
        (init : q.input.interp → Cache → Except String q.output.interp × Cache),
        c.get_if_arg_eq_prev_input q k a = (some stored, c1) →
        w stored = Except.error msg →
        c.cache_with_panicking q k a init w = (Except.error msg, c1)
        ∧ c1.entryAt q k = some ⟨Liveness.Live, a, stored⟩
        ∧ (∀ (q' : Query) (k' : q'.scope.interp), q' ≠ q →
            c1.entryAt q' k' = c.entryAt q' k')
        ∧ (∀ k' : q.scope.interp, k' ≠ k → c1.entryAt q k' = c.entryAt q k'))
    ∧ (∀ (c1 d : Cache)
        (init : q.input.interp → Cache → Except String q.output.interp × Cache),
        c.get_if_arg_eq_prev_input q k a = (none, c1) →
        init a c1 = (Except.error msg, d) →
        c.cache_with_panicking q k a init w = (Except.error msg, d))
    ∧ (∀ (c1 c2 : Cache) (out : q.output.interp)
        (init : q.input.interp → Cache → Except String q.output.interp × Cache),
        c.get_if_arg_eq_prev_input q k a = (none, c1) →
        init a c1 = (Except.ok out, c2) →
        w out = Except.error msg →
        c.cache_with_panicking q k a init w = (Except.error msg, c2))
    ∧ (∀ c1 : Cache, c.get_if_arg_eq_prev_input q k a = (none, c1) →
        ∀ (q' : Query) (k' : q'.scope.interp), c1.entryAt q' k' = c.entryAt q' k') := by
  refine ⟨?_, ?_, ?_, ?_⟩
  · intro stored c1 init h hw
    have hspec := Cache.read_hit_spec c q k a stored c1 h
    exact ⟨by simp [Cache.cache_with_panicking, h, hw], hspec.1, hspec.2.1, hspec.2.2⟩
  · intro c1 d init h h2
    simp [Cache.cache_with_panicking, h, h2]
  · intro c1 c2 out init h h2 hw
    simp [Cache.cache_with_panicking, h, h2, hw]
  · intro c1 h
    exact Cache.read_none_entryAt c q k a c1 h

/-- Witness for C6 at concrete caches: a `with` panic on a hit, an `init`
panic on a miss and a `with` panic on a miss all propagate, and the
post-read state of the missed call has the same stored entries as the empty
initial cache. -/
theorem cache_with_panic_propagation_witness :
    (Cache.cache_with_panicking (Cache.store ⟨[]⟩ natQuery (3 : Nat) (1 : Nat) (7 : Nat))
        natQuery (3 : Nat) (1 : Nat)
        (fun (i : Nat) cc => (Except.ok (i + 100), cc))
        (fun _ => (Except.error "boom" : Except String Nat))
      = (Except.error "boom",
          ((Cache.store ⟨[]⟩ natQuery (3 : Nat) (1 : Nat) (7 : Nat)).get_if_arg_eq_prev_input
            natQuery (3 : Nat) (1 : Nat)).2))
    ∧ (Cache.cache_with_panicking ⟨[]⟩ natQuery (3 : Nat) (1 : Nat)
        (fun (_ : Nat) cc => ((Except.error "boom" : Except String Nat), cc))
        (fun o => (Except.ok o : Except String Nat))
      = (Except.error "boom", cwMissBase))
    ∧ (Cache.cache_with_panicking ⟨[]⟩ natQuery (3 : Nat) (1 : Nat)
        (fun (i : Nat) cc => ((Except.ok (i + 6) : Except String Nat), cc))
        (fun _ => (Except.error "boom" : Except String Nat))
      = (Except.error "boom", cwMissBase))
    ∧ cwMissBase.entryAt natQuery (3 : Nat) = Cache.entryAt ⟨[]⟩ natQuery (3 : Nat) := by
  refine ⟨?_, ?_, ?_, ?_⟩
  · exact ((cache_with_panic_propagation (Cache.store ⟨[]⟩ natQuery (3 : Nat) (1 : Nat)
      (7 : Nat)) natQuery (3 : Nat) (1 : Nat)
      (fun _ => (Except.error "boom" : Except String Nat)) "boom").1
      (7 : Nat) _ (fun (i : Nat) cc => (Except.ok (i + 100), cc)) rfl rfl).1
  · exact (cache_with_panic_propagation ⟨[]⟩ natQuery (3 : Nat) (1 : Nat)
      (fun o => (Except.ok o : Except String Nat)) "boom").2.1 cwMissBase cwMissBase
      (fun (_ : Nat) cc => ((Except.error "boom" : Except String Nat), cc)) rfl rfl
  · exact (cache_with_panic_propagation ⟨[]⟩ natQuery (3 : Nat) (1 : Nat)
      (fun _ => (Except.error "boom" : Except String Nat)) "boom").2.2.1 cwMissBase cwMissBase
      (7 : Nat) (fun (i : Nat) cc => ((Except.ok (i + 6) : Except String Nat), cc)) rfl rfl rfl
  · exact (cache_with_panic_propagation ⟨[]⟩ natQuery (3 : Nat) (1 : Nat)
      (fun o => (Except.ok o : Except String Nat)) "boom").2.2.2 cwMissBase rfl
      natQuery (3 : Nat)

/-- Claim C4: the child `Id` is the 64-bit FNV-class hash of the triple
(parent id, callsite, slot) — feeding the three values through one fresh
FNV-1a hasher equals hashing their concatenated byte serializations — the
computation is deterministic (equal triples give equal ids), the result is a
64-bit value, and the root `Id` is zero (root `Point` modelled from the
spec, since the source `Point::default` leaves its callsite
`unimplemented!()`; its `id` field is the literal `Id(0)`). -/
theorem id_child_fnv_deterministic_root_zero :
    (∀ (p : Id) (c s : Nat),
        (p.child c s).val = fnv1a64 (u64Bytes p.val ++ u64Bytes c ++ u64Bytes s))
    ∧ (∀ (p1 p2 : Id) (c1 c2 s1 s2 : Nat),
        p1 = p2 → c1 = c2 → s1 = s2 → p1.child c1 s1 = p2.child c2 s2)
    ∧ (∀ (p : Id) (c s : Nat), (p.child c s).val < 2 ^ 64)
    ∧ Point.defaultSpec.id = ⟨0⟩ := by
  refine ⟨?_, ?_, ?_, rfl⟩
  · intro p c s
    show fnvWrite (fnvWrite (fnvWrite fnvOffsetBasis (u64Bytes p.val))
        (u64Bytes c)) (u64Bytes s) = _
    rw [fnv1a64, fnvWrite_append, fnvWrite_append, ← List.append_assoc]
  · intro p1 p2 c1 c2 s1 s2 hp hc hs
    rw [hp, hc, hs]
  · intro p c s
    have hbasis : fnvOffsetBasis < 2 ^ 64 := by
      rw [fnvOffsetBasis]
      norm_num
    exact fnvWrite_lt _ _ (fnvWrite_lt _ _ (fnvWrite_lt _ _ hbasis))

/-- Witness for C4: determinism applied at the concrete triple (1, 2, 3). -/
theorem id_child_fnv_deterministic_root_zero_witness :
    (⟨1⟩ : Id) = ⟨1⟩ ∧ (2 : Nat) = 2 ∧ (3 : Nat) = 3
    ∧ Id.child ⟨1⟩ 2 3 = Id.child ⟨1⟩ 2 3 :=
  ⟨rfl, rfl, rfl,
    id_child_fnv_deterministic_root_zero.2.1 ⟨1⟩ ⟨1⟩ 2 2 3 3 rfl rfl rfl⟩

/-- Claim C5 (refuted by the code): `Id::current` with no ambient `Point`
evaluates `Point::default()`, whose `callsite` field is `unimplemented!()`,
so the call panics instead of returning the root id 0; with an ambient
`Point` it does return that point's id, and against the spec-mandated root
`Point` model the absent case returns 0. -/
theorem id_current_panics_without_ambient_point :
    Id.currentCode none = Except.error "not implemented"
    ∧ (∀ p : Point, Id.currentCode (some p) = Except.ok p.id)
    ∧ Id.currentSpec none = ⟨0⟩ :=
  ⟨rfl, fun _ => rfl, rfl⟩

/-- Claim C8: entering a child increments the parent's per-callsite counter
for the entered callsite before the child id is computed; with the
spec-modelled default slot, the first child created at a fresh callsite
observes a counter value of 1 and its id hashes slot 1, not 0. -/
theorem enter_child_increments_before_hash (p : Point) (c slot : Nat)
    (hfresh : p.unstable_callsite_count c = 0) :
    ((p.unstable_enter_child c slot).1).unstable_callsite_count c
        = p.unstable_callsite_count c + 1
    ∧ ((p.unstable_enter_child c slot).1).unstable_callsite_count c = 1
    ∧ ((p.unstable_enter_child c slot).2).id = p.id.child c slot
    ∧ ((p.enter_child_default_slot c).2).id = p.id.child c 1
    ∧ ((p.enter_child_default_slot c).1).unstable_callsite_count c = 1 := by
  have hinc := Point.count_increment_self p c
  have h1 : (p.increment_count c).unstable_callsite_count c = 1 := by
    rw [hinc, hfresh]
  refine ⟨hinc, h1, rfl, ?_, h1⟩
  show p.id.child c ((p.increment_count c).unstable_callsite_count c) = p.id.child c 1
  rw [h1]

/-- Witness for C8: the spec-modelled root point entering a child at the
fresh callsite 5. -/
theorem enter_child_increments_before_hash_witness :
    Point.defaultSpec.unstable_callsite_count 5 = 0
    ∧ ((Point.defaultSpec.unstable_enter_child 5 1).1).unstable_callsite_count 5
        = Point.defaultSpec.unstable_callsite_count 5 + 1
    ∧ ((Point.defaultSpec.unstable_enter_child 5 1).1).unstable_callsite_count 5 = 1
    ∧ ((Point.defaultSpec.unstable_enter_child 5 1).2).id = Point.defaultSpec.id.child 5 1
    ∧ ((Point.defaultSpec.enter_child_default_slot 5).2).id = Point.defaultSpec.id.child 5 1
    ∧ ((Point.defaultSpec.enter_child_default_slot 5).1).unstable_callsite_count 5 = 1 :=
  ⟨rfl, (enter_child_increments_before_hash Point.defaultSpec 5 1 rfl).1,
    (enter_child_increments_before_hash Point.defaultSpec 5 1 rfl).2.1,
    (enter_child_increments_before_hash Point.defaultSpec 5 1 rfl).2.2.1,
    (enter_child_increments_before_hash Point.defaultSpec 5 1 rfl).2.2.2.1,
    (enter_child_increments_before_hash Point.defaultSpec 5 1 rfl).2.2.2.2⟩
